import Mathlib

/-!
Shallow embedding of the recurring-task occurrence engine of the DuperAIO
repository: the calendar-date helpers, the occurrence predicate (four
textually identical copies across the code base), the exception ledger
operations, the daily task selector of the home dashboard, and the
streak/heatmap aggregator.

Calendar days are modelled as explicit year/month/day triples (`YMD`).
A JavaScript `Date` produced by `new Date(s + 'T00:00:00')` is modelled as
`Option YMD`: `some d` when `s + 'T00:00:00'` conforms to the Date Time
String Format mandated by ECMA-262 — that is, when `s` is a conforming
date (`YYYY`, `YYYY-MM` or `YYYY-MM-DD`, with expanded `±YYYYYY` years
also allowed, absent month/day defaulting to 01, element values legal,
and the resulting instant inside the representable ±8.64e15 ms range) —
denoting the local-midnight calendar day `d`; and `none` for an Invalid
Date.  Non-conforming strings fall to implementation-defined heuristic
parsing, which the model uniformly treats as Invalid Date, and the
model's local time zone is taken as UTC (this only affects validity at
the two extreme boundary days of the representable range).  The NaN
semantics of an Invalid Date are made explicit: every comparison
(`<`, `>=`, `===`) against a `none` component is `false`.
-/

namespace DuperAIO

/-- Calendar day as a local year/month/day triple
(month 1-12, day 1-31, year unbounded). -/
structure YMD where
  year : Int
  month : Nat
  day : Nat
  deriving DecidableEq, Repr

/-- Gregorian leap-year rule (as used by JavaScript local dates). -/
def isLeapYear (y : Int) : Bool :=
  (y % 4 == 0 && y % 100 != 0) || (y % 400 == 0)

/-- Number of days in month `m` (1-12) of year `y`. -/
def daysInMonth (y : Int) (m : Nat) : Nat :=
  if m = 2 then (if isLeapYear y then 29 else 28)
  else if m = 4 ∨ m = 6 ∨ m = 9 ∨ m = 11 then 30
  else 31

/-- Well-formedness of a `YMD` triple: the month is 1-12 and the day
exists in that month. -/
def ValidYMD (d : YMD) : Prop :=
  1 ≤ d.month ∧ d.month ≤ 12 ∧ 1 ≤ d.day ∧ d.day ≤ daysInMonth d.year d.month

instance (d : YMD) : Decidable (ValidYMD d) := by
  unfold ValidYMD; infer_instance

/-- Left-pad a number to two digits, embedding
`String(n).padStart(2, '0')` from the source date formatters. -/
def pad2 (n : Nat) : String :=
  if n < 10 then "0" ++ toString n else toString n

/-- Embeds `formatYMD` of `PlannerScreen.tsx` / the planner module:
`year-month-day` rendered from the local components with two-digit
padding of month and day. -/
def formatYMD (d : YMD) : String :=
  toString d.year ++ "-" ++ pad2 d.month ++ "-" ++ pad2 d.day

/-- Embeds `getLocalDateString` of `app/index.tsx` (both copies): the
local calendar day of an instant rendered as `YYYY-MM-DD`.  Both source
implementations (component formatting, and the timezone-offset ISO trick)
produce the local year-month-day string, which is what this returns. -/
def getLocalDateString (d : YMD) : String :=
  toString d.year ++ "-" ++ pad2 d.month ++ "-" ++ pad2 d.day

/-- Split a character list at every occurrence of the separator `c`,
modelling `String.prototype.split` on a one-character separator. -/
def splitOnChar (c : Char) : List Char → List (List Char)
  | [] => [[]]
  | x :: xs =>
    if x == c then [] :: splitOnChar c xs
    else
      match splitOnChar c xs with
      | r :: rs => (x :: r) :: rs
      | [] => [[x]]

/-- Decimal value of a digit character, `none` for a non-digit. -/
def charDigit (c : Char) : Option Nat :=
  if 48 ≤ c.toNat ∧ c.toNat ≤ 57 then some (c.toNat - 48) else none

/-- Accumulating base-10 read of a digit list; `none` on any
non-digit. -/
def readDigits : List Char → Nat → Option Nat
  | [], acc => some acc
  | c :: cs, acc =>
    match charDigit c with
    | some d => readDigits cs (acc * 10 + d)
    | none => none

/-- Numeric value of a non-empty all-digit character list, `none`
otherwise (the digit-string fragment of JavaScript number parsing that
the date and time strings of this code base exercise). -/
def toNatDigits : List Char → Option Nat
  | [] => none
  | l => readDigits l 0

/-- Days since 1970-01-01 of a calendar day (civil-from-days algorithm);
used to model `Date.prototype.getDay` and the representable-range check
of date parsing. -/
def dayNumber (d : YMD) : Int :=
  let y : Int := if d.month ≤ 2 then d.year - 1 else d.year
  let era : Int := Int.ediv y 400
  let yoe : Int := y - era * 400
  let mp : Nat := (d.month + 9) % 12
  let doy : Nat := (153 * mp + 2) / 5 + d.day - 1
  let doe : Int := yoe * 365 + Int.ediv yoe 4 - Int.ediv yoe 100 + (doy : Int)
  era * 146097 + doe - 719468

/-- Read exactly `n` digit characters as a base-10 number, returning the
value and the remaining characters; `none` if fewer than `n` digits are
available. -/
def readFixedDigits : Nat → Nat → List Char → Option (Nat × List Char)
  | 0, acc, rest => some (acc, rest)
  | Nat.succ _, _, [] => none
  | Nat.succ k, acc, c :: rest =>
    match charDigit c with
    | some d => readFixedDigits k (acc * 10 + d) rest
    | none => none

/-- Year production of the ECMA-262 Date Time String Format: either a
plain four-digit year, or an expanded year — a mandatory `+`/`-` sign
followed by exactly six digits, with `-000000` illegal. -/
def parseYearPart : List Char → Option (Int × List Char)
  | '+' :: rest =>
    match readFixedDigits 6 0 rest with
    | some (y, rest2) => some ((y : Int), rest2)
    | none => none
  | '-' :: rest =>
    match readFixedDigits 6 0 rest with
    | some (y, rest2) => if y = 0 then none else some (-(y : Int), rest2)
    | none => none
  | l =>
    match readFixedDigits 4 0 l with
    | some (y, rest2) => some ((y : Int), rest2)
    | none => none

/-- Optional `-MM` and `-MM-DD` productions after the year: an absent
month or day defaults to 01, the month must be 01-12, the day must exist
in the month (an illegal element value makes the whole string
unparseable), and no characters may remain. -/
def parseMonthDay (y : Int) : List Char → Option YMD
  | [] => some ⟨y, 1, 1⟩
  | '-' :: rest =>
    match readFixedDigits 2 0 rest with
    | some (m, rest2) =>
      if 1 ≤ m ∧ m ≤ 12 then
        match rest2 with
        | [] => some ⟨y, m, 1⟩
        | '-' :: rest3 =>
          match readFixedDigits 2 0 rest3 with
          | some (d, rest4) =>
            if rest4 = [] ∧ 1 ≤ d ∧ d ≤ daysInMonth y m then some ⟨y, m, d⟩
            else none
          | none => none
        | _ => none
      else none
    | none => none
  | _ => none

/-- Representable-range check of ECMA-262: a time value must lie within
±8.64e15 milliseconds of the epoch, i.e. the day must lie within
±100000000 days (the model's local zone is UTC, so the appended
`T00:00:00` contributes no offset). -/
def inDateRange (d : YMD) : Bool :=
  decide (-100000000 ≤ dayNumber d) && decide (dayNumber d ≤ 100000000)

/-- Parse of a date string `s` as the ECMA-262 Date Time String Format
mandates for `new Date(s + 'T00:00:00')`: since the code appends the
fixed time `T00:00:00`, the concatenation conforms exactly when `s` is
a conforming date — `YYYY`, `YYYY-MM` or `YYYY-MM-DD` with expanded
`±YYYYYY` years also allowed, absent month/day defaulting to 01, legal
element values, and the result within the representable range.  Every
non-conforming string falls to implementation-defined heuristic parsing,
which the model treats as Invalid Date (`none`). -/
def parseYMD (s : String) : Option YMD :=
  match parseYearPart s.toList with
  | some (y, rest) =>
    match parseMonthDay y rest with
    | some d => if inDateRange d then some d else none
    | none => none
  | none => none

/-- Embeds `toDate` (`new Date(isoDate + 'T00:00:00')`), defined
identically in `app/index.tsx` (twice), `PlannerScreen.tsx` and the
planner module: parse the string per the mandated Date Time String
Format as a local-midnight calendar day, `none` standing for an Invalid
Date. -/
def toDate (isoDate : String) : Option YMD := parseYMD isoDate

/-- Embeds `isSameDay`, defined identically in all four files: compare
`getFullYear`, `getMonth` and `getDate` of the two dates.  On an Invalid
Date each component is NaN and every `===` comparison is false. -/
def isSameDay : Option YMD → Option YMD → Bool
  | some a, some b => a.year == b.year && a.month == b.month && a.day == b.day
  | _, _ => false

/-- Lexicographic order on year/month/day; for local midnights this is
exactly the order of `getTime()` values. -/
def ymdLt (a b : YMD) : Bool :=
  a.year < b.year ||
    (a.year == b.year &&
      (a.month < b.month || (a.month == b.month && a.day < b.day)))

/-- Embeds `current.getTime() < base.getTime()`: timestamp comparison of
two local midnights; any comparison against an Invalid Date (NaN) is
false. -/
def dateTimeLt : Option YMD → Option YMD → Bool
  | some a, some b => ymdLt a b
  | _, _ => false

/-- Embeds `getDay()`: day of week, 0 = Sunday .. 6 = Saturday
(1970-01-01 was a Thursday, day 4). -/
def dayOfWeek (d : YMD) : Nat :=
  (Int.emod (dayNumber d + 4) 7).toNat

/-- Component accessor on a possibly Invalid Date: `getDay()`,
`none` = NaN. -/
def getDayOpt : Option YMD → Option Nat
  | some d => some (dayOfWeek d)
  | none => none

/-- Component accessor on a possibly Invalid Date: `getDate()`
(day of month), `none` = NaN. -/
def getDateOpt : Option YMD → Option Nat
  | some d => some d.day
  | none => none

/-- Component accessor on a possibly Invalid Date: `getMonth()`
(0-based month as in JavaScript), `none` = NaN. -/
def getMonthOpt : Option YMD → Option Nat
  | some d => some (d.month - 1)
  | none => none

/-- JavaScript `===` on two possibly-NaN numbers: false when either side
is NaN. -/
def natEqOpt : Option Nat → Option Nat → Bool
  | some a, some b => a == b
  | _, _ => false

/-- Task record as stored by the planner (`plannerTasks_v3`).  The field
`repeatRule` embeds the source field `repeat` (a Lean keyword); it is a
`String` because the runtime value is an arbitrary JSON string (the
predicate dispatches on string equality).  An absent
`completedExceptions` array is modelled as the empty list, and an absent
`startTime` as `none`. -/
structure Task where
  id : String
  title : String
  date : String
  startTime : Option String
  repeatRule : String
  isCompleted : Bool
  completedExceptions : List String
  deriving DecidableEq, Repr

/-- Embeds `occursOnDate` of `app/index.tsx` lines 72-86 (the dashboard
copy): does the task occur on the target calendar day. -/
def occursOnDate (task : Task) (targetDateStr : String) : Bool :=
  let base := toDate task.date
  let current := toDate targetDateStr
  if task.repeatRule == "none" then isSameDay base current
  else if dateTimeLt current base then false
  else if task.repeatRule == "daily" then true
  else if task.repeatRule == "weekly" then
    natEqOpt (getDayOpt base) (getDayOpt current)
  else if task.repeatRule == "monthly" then
    natEqOpt (getDateOpt base) (getDateOpt current)
  else if task.repeatRule == "yearly" then
    natEqOpt (getDateOpt base) (getDateOpt current) &&
      natEqOpt (getMonthOpt base) (getMonthOpt current)
  else false

/-- Embeds `occursOnDate` of `app/index.tsx` lines 723-737 (the copy in
the custom-hooks section), textually identical to the dashboard copy. -/
def occursOnDate_hooks (task : Task) (targetDateStr : String) : Bool :=
  let base := toDate task.date
  let current := toDate targetDateStr
  if task.repeatRule == "none" then isSameDay base current
  else if dateTimeLt current base then false
  else if task.repeatRule == "daily" then true
  else if task.repeatRule == "weekly" then
    natEqOpt (getDayOpt base) (getDayOpt current)
  else if task.repeatRule == "monthly" then
    natEqOpt (getDateOpt base) (getDateOpt current)
  else if task.repeatRule == "yearly" then
    natEqOpt (getDateOpt base) (getDateOpt current) &&
      natEqOpt (getMonthOpt base) (getMonthOpt current)
  else false

/-- Embeds `occursOnDate` of `src/screens/PlannerScreen.tsx` lines
70-82, textually identical to the dashboard copy. -/
def occursOnDate_planner (task : Task) (dateStr : String) : Bool :=
  let base := toDate task.date
  let current := toDate dateStr
  if task.repeatRule == "none" then isSameDay base current
  else if dateTimeLt current base then false
  else if task.repeatRule == "daily" then true
  else if task.repeatRule == "weekly" then
    natEqOpt (getDayOpt base) (getDayOpt current)
  else if task.repeatRule == "monthly" then
    natEqOpt (getDateOpt base) (getDateOpt current)
  else if task.repeatRule == "yearly" then
    natEqOpt (getDateOpt base) (getDateOpt current) &&
      natEqOpt (getMonthOpt base) (getMonthOpt current)
  else false

/-- Embeds `occursOnDate` of the planner module (unnamed source file,
lines 188-200), textually identical to the dashboard copy. -/
def occursOnDate_part001 (task : Task) (dateStr : String) : Bool :=
  let base := toDate task.date
  let current := toDate dateStr
  if task.repeatRule == "none" then isSameDay base current
  else if dateTimeLt current base then false
  else if task.repeatRule == "daily" then true
  else if task.repeatRule == "weekly" then
    natEqOpt (getDayOpt base) (getDayOpt current)
  else if task.repeatRule == "monthly" then
    natEqOpt (getDateOpt base) (getDateOpt current)
  else if task.repeatRule == "yearly" then
    natEqOpt (getDateOpt base) (getDateOpt current) &&
      natEqOpt (getMonthOpt base) (getMonthOpt current)
  else false

/-- Previous calendar day with month/year rollover; `d.setDate(d.getDate() - i)`
in the source normalizes exactly like `i` applications of this step. -/
def prevDay (d : YMD) : YMD :=
  if 1 < d.day then { d with day := d.day - 1 }
  else if 1 < d.month then
    { d with month := d.month - 1, day := daysInMonth d.year (d.month - 1) }
  else { year := d.year - 1, month := 12, day := 31 }

/-- Next calendar day with month/year rollover. -/
def nextDay (d : YMD) : YMD :=
  if d.day < daysInMonth d.year d.month then { d with day := d.day + 1 }
  else if d.month < 12 then { d with month := d.month + 1, day := 1 }
  else { year := d.year + 1, month := 1, day := 1 }

/-- Calendar day `n` days before `d`, embedding the source's
`d.setDate(d.getDate() - n)`. -/
def subDays (d : YMD) (n : Nat) : YMD := prevDay^[n] d

/-- Instant within a day: a local calendar day plus seconds since its
local midnight (models a JavaScript `Date` carrying a time of day). -/
structure Instant where
  day : YMD
  sec : Nat
  deriving DecidableEq, Repr

/-- Parse of the `HH:MM` fragment that the planner interpolates into
`new Date(dateStr + 'T' + startTime + ':00')`: two-digit hour 00-23 and
two-digit minute 00-59 give minutes since midnight, anything else is an
Invalid Date (`none`). -/
def parseHM (st : String) : Option Nat :=
  match splitOnChar ':' st.toList with
  | [hs, ms] =>
    if hs.length = 2 ∧ ms.length = 2 then
      match toNatDigits hs, toNatDigits ms with
      | some h, some m => if h ≤ 23 ∧ m ≤ 59 then some (h * 60 + m) else none
      | _, _ => none
    else none
  | _ => none

/-- JavaScript `Number` on the fragments produced by `split(':')` in the
dashboard filter: the empty string is `0`, a non-empty digit string is
its value, anything else is NaN (`none`). -/
def jsNumberNat : List Char → Option Nat
  | [] => some 0
  | l => readDigits l 0

/-- Embeds `const [h, m] = t.startTime.split(':').map(Number)` followed
by `h * 60 + m` in the dashboard's today filter: minutes since local
midnight, `none` when the arithmetic involves NaN (missing or non-digit
fragment). -/
def timeToMinutes (st : String) : Option Nat :=
  match splitOnChar ':' st.toList with
  | a :: b :: _ =>
    match jsNumberNat a, jsNumberNat b with
    | some h, some m => some (h * 60 + m)
    | _, _ => none
  | _ => none

/-- Embeds the `isFuture` computation of `loadRealTimeTasks`
(`app/index.tsx` lines 222-227): `true` unless the task has a (truthy)
`startTime` whose minutes are strictly less than the current minutes;
a NaN comparison leaves `isFuture` at `true`. -/
def isFutureCheck (t : Task) (currentMinutes : Nat) : Bool :=
  match t.startTime with
  | none => true
  | some st =>
    if st = "" then true
    else
      match timeToMinutes st with
      | none => true
      | some taskMinutes => if taskMinutes < currentMinutes then false else true

/-- Embeds the filter body of `loadRealTimeTasks` (`app/index.tsx` lines
218-231): a task is kept for the home "today" list iff it occurs today,
is not a completed one-time task, today is not a completed exception,
and its start time has not already passed. -/
def homeKeeps (t : Task) (todayStr : String) (currentMinutes : Nat) : Bool :=
  let occurs := occursOnDate t todayStr
  let isException := t.completedExceptions.contains todayStr
  let isOneTimeDone := t.repeatRule == "none" && t.isCompleted
  let isFuture := isFutureCheck t currentMinutes
  occurs && !isOneTimeDone && !isException && isFuture

/-- Sort key of the today-list ordering: `a.startTime || '23:59'`
(a missing or empty start time sorts with the sentinel). -/
def sortKey (t : Task) : String :=
  match t.startTime with
  | some s => if s = "" then "23:59" else s
  | none => "23:59"

/-- Stable insertion of a task into an already sorted list, ascending by
`sortKey`. -/
def insertByStartTime (t : Task) : List Task → List Task
  | [] => [t]
  | u :: rest =>
    if decide (sortKey t ≤ sortKey u) then t :: u :: rest
    else u :: insertByStartTime t rest

/-- Stable ascending sort by `sortKey`, embedding
`filtered.sort((a, b) => (a.startTime || '23:59').localeCompare(b.startTime || '23:59'))`. -/
def sortByStartTime : List Task → List Task
  | [] => []
  | t :: rest => insertByStartTime t (sortByStartTime rest)

/-- Embeds the home dashboard "today" selector (`loadRealTimeTasks` and
the identical `useTasks` copy): filter by `homeKeeps`, then sort by
start time. -/
def selectTodayTasks (allTasks : List Task) (todayStr : String)
    (currentMinutes : Nat) : List Task :=
  sortByStartTime (allTasks.filter (fun t => homeKeeps t todayStr currentMinutes))

/-- Embeds the per-task "done on day `dStr`" check of the streak loop
(`app/index.tsx` lines 242-248 and the identical `useTasks` copy): the
task occurs on the day and either the day is a completed exception or it
is a one-time task completed on exactly its base date. -/
def streakDoneCheck (t : Task) (dStr : String) : Bool :=
  let occurs := occursOnDate t dStr
  let isRecurringDone := t.completedExceptions.contains dStr
  let isOneTimeDone := t.repeatRule == "none" && t.isCompleted && t.date == dStr
  occurs && (isRecurringDone || isOneTimeDone)

/-- Number of tasks counted done on a day by the streak loop. -/
def dayCount (allTasks : List Task) (dStr : String) : Nat :=
  allTasks.countP (fun t => streakDoneCheck t dStr)

/-- Embeds the intensity bucketing of the streak loop (`app/index.tsx`
lines 250-255 and the identical `useTasks` copy): start at 0 and raise
to 1, 2, 3, 4 as the count passes 0, 2, 4, 6. -/
def intensityOfCount (count : Nat) : Nat :=
  let i0 := 0
  let i1 := if count > 0 then 1 else i0
  let i2 := if count > 2 then 2 else i1
  let i3 := if count > 4 then 3 else i2
  if count > 6 then 4 else i3

/-- History entry pushed by the streak loop (`{date, count, intensity}`,
the `StreakItem` interface of `app/index.tsx`). -/
structure StreakItem where
  date : String
  count : Nat
  intensity : Nat
  deriving DecidableEq, Repr

/-- Embeds the history loop of `loadRealTimeTasks` (`app/index.tsx`
lines 236-257) and the identical `useTasks` copy (whose loop bound
`STREAK_DAYS_LxOOKBACK` is the constant 13): for `i` from 13 down to 0,
push the entry for the local day `i` days before `today`. -/
def computeHistory (allTasks : List Task) (today : YMD) : List StreakItem :=
  (List.range 14).map (fun j =>
    let i := 13 - j
    let dStr := getLocalDateString (subDays today i)
    let count := dayCount allTasks dStr
    { date := dStr, count := count, intensity := intensityOfCount count })

/-- Embeds the streak loop (`app/index.tsx` lines 259-264 and the
identical `useTasks` copy) walking the visited counts in visit order
(most recent first); the flag records whether the current index is the
last index of the history (`i === history.length - 1`), on which a zero
count does not break the walk. -/
def streakWalk : Bool → List Nat → Nat
  | _, [] => 0
  | isLastIndex, c :: rest =>
    if c > 0 then streakWalk false rest + 1
    else if isLastIndex then streakWalk false rest
    else 0

/-- Current streak of a history list: walk from the most recent entry
backward. -/
def currentStreakOf (history : List StreakItem) : Nat :=
  streakWalk true ((history.map StreakItem.count).reverse)

/-- Embeds the `repeat === 'none'` branch of the planner's
`toggleComplete`: flip `isCompleted` of the given task. -/
def toggleCompleteNone (tasks : List Task) (taskId : String) : List Task :=
  tasks.map (fun t =>
    if t.id == taskId then { t with isCompleted := !t.isCompleted } else t)

/-- Embeds the "Only this task" branch of the planner's `toggleComplete`
(planner module, unnamed source file, lines 328-335): append `todayStr`
to the task's `completedExceptions` (unconditionally). -/
def toggleCompleteThis (tasks : List Task) (taskId : String)
    (todayStr : String) : List Task :=
  tasks.map (fun t =>
    if t.id == taskId then
      { t with completedExceptions := t.completedExceptions ++ [todayStr] }
    else t)

/-- Embeds the "All upcoming" branch of the planner's `toggleComplete`:
set `isCompleted` to `true` on the given task. -/
def toggleCompleteAll (tasks : List Task) (taskId : String) : List Task :=
  tasks.map (fun t =>
    if t.id == taskId then { t with isCompleted := true } else t)

/-- Embeds `new Date(dateStr + 'T' + t.startTime + ':00')` when the task
has a truthy start time, and `toDate(t.date)` otherwise (the `taskTime`
of the planner's `dailyTasks`); `none` is an Invalid Date. -/
def taskTimeOf (t : Task) (dateStr : String) : Option Instant :=
  match t.startTime with
  | some st =>
    if st = "" then (toDate t.date).map (fun d => ⟨d, 0⟩)
    else
      match parseYMD dateStr, parseHM st with
      | some d, some mins => some ⟨d, mins * 60⟩
      | _, _ => none
  | none => (toDate t.date).map (fun d => ⟨d, 0⟩)

/-- Embeds `taskTime >= now` on instants: epoch-millisecond comparison,
false when `taskTime` is an Invalid Date (NaN). -/
def instGe : Option Instant → Instant → Bool
  | none, _ => false
  | some t, n => ymdLt n.day t.day || (t.day == n.day && decide (n.sec ≤ t.sec))

/-- Embeds the planner's `dailyTasks` selector (planner module, unnamed
source file, lines 203-221): keep tasks occurring on the selected day,
mark a task completed when the day is in its `completedExceptions`, then
unless `showCompleted` drop completed tasks and apply the past-time
visibility rule, and finally sort by start time. -/
def dailyTasks (tasks : List Task) (selectedDate : YMD)
    (showCompleted : Bool) (now : Instant) : List Task :=
  let dateStr := formatYMD selectedDate
  let occurring := tasks.filter (fun t => occursOnDate_part001 t dateStr)
  let marked := occurring.map (fun t =>
    if t.completedExceptions.contains dateStr then { t with isCompleted := true }
    else t)
  let visible := marked.filter (fun t =>
    if showCompleted then true
    else if t.isCompleted then false
    else
      instGe (taskTimeOf t dateStr) now ||
        isSameDay (toDate t.date) (some now.day) || t.startTime == none)
  sortByStartTime visible

theorem daysInMonth_pos (y : Int) (m : Nat) : 1 ≤ daysInMonth y m := by
  unfold daysInMonth
  split_ifs <;> omega

theorem daysInMonth_dec (y : Int) : daysInMonth y 12 = 31 := by
  unfold daysInMonth
  norm_num

theorem prevDay_valid {d : YMD} (h : ValidYMD d) : ValidYMD (prevDay d) := by
  obtain ⟨y, m, dd⟩ := d
  obtain ⟨h1, h2, h3, h4⟩ := h
  simp only [ValidYMD] at *
  unfold prevDay
  split_ifs with hd hm
  · simp only at *
    refine ⟨h1, h2, by omega, by omega⟩
  · simp only at *
    exact ⟨by omega, by omega, daysInMonth_pos _ _, le_refl _⟩
  · simp only at *
    exact ⟨by omega, by omega, by omega, by rw [daysInMonth_dec]⟩

theorem nextDay_prevDay {d : YMD} (h : ValidYMD d) : nextDay (prevDay d) = d := by
  obtain ⟨y, m, dd⟩ := d
  obtain ⟨h1, h2, h3, h4⟩ := h
  simp only [ValidYMD] at *
  unfold prevDay nextDay
  split_ifs with hd hm hlt hm2 hlt2 hm3 <;> simp_all [daysInMonth_dec] <;> omega

theorem subDays_valid {d : YMD} (h : ValidYMD d) (n : Nat) :
    ValidYMD (subDays d n) := by
  induction n with
  | zero => exact h
  | succ k ih =>
    rw [subDays, Function.iterate_succ_apply']
    exact prevDay_valid ih

theorem nextDay_subDays {d : YMD} (h : ValidYMD d) (n : Nat) :
    nextDay (subDays d (n + 1)) = subDays d n := by
  rw [subDays, Function.iterate_succ_apply']
  exact nextDay_prevDay (subDays_valid h n)

theorem streakWalk_le (b : Bool) (l : List Nat) : streakWalk b l ≤ l.length := by
  induction l generalizing b with
  | nil => simp [streakWalk]
  | cons c rest ih =>
    simp only [streakWalk, List.length_cons]
    split_ifs
    · exact Nat.succ_le_succ (ih false)
    · exact Nat.le_succ_of_le (ih false)
    · exact Nat.zero_le _

theorem streakWalk_false_eq (l : List Nat) :
    streakWalk false l = (l.takeWhile (fun n => decide (0 < n))).length := by
  induction l with
  | nil => rfl
  | cons c rest ih =>
    simp only [streakWalk, List.takeWhile]
    by_cases h : 0 < c
    · simp [h, ih]
    · simp [h]

theorem parseMonthDay_valid {y : Int} {l : List Char} {c : YMD}
    (h : parseMonthDay y l = some c) : ValidYMD c := by
  unfold parseMonthDay at h
  repeat' split at h
  all_goals
    first
      | (injection h with h2
         subst h2
         refine ⟨?_, ?_, ?_, ?_⟩ <;> dsimp only <;>
           first | exact daysInMonth_pos _ _ | omega)
      | injection h

theorem parseYMD_valid {s : String} {c : YMD} (h : parseYMD s = some c) :
    ValidYMD c := by
  unfold parseYMD at h
  split at h
  · rename_i y rest hy
    split at h
    · rename_i d hd
      split at h
      · injection h with h
        subst h
        exact parseMonthDay_valid hd
      · exact absurd h (by simp)
    · exact absurd h (by simp)
  · exact absurd h (by simp)

/-- C9: the four duplicated copies of the occurrence predicate — both
copies in `app/index.tsx`, the copy in `PlannerScreen.tsx` and the copy
in the planner module — are extensionally equal: they return the same
boolean on every task and every target date string. -/
theorem occursOnDate_copies_agree (t : Task) (d : String) :
    occursOnDate t d = occursOnDate_hooks t d ∧
    occursOnDate t d = occursOnDate_planner t d ∧
    occursOnDate t d = occursOnDate_part001 t d :=
  ⟨rfl, rfl, rfl⟩

/-- C7: the heatmap intensity is exactly the fixed bucket map — count 0
gives intensity 0, counts 1-2 give 1, counts 3-4 give 2, counts 5-6
give 3, and counts 7 or more give 4. -/
theorem intensity_bucket_map (c : Nat) :
    intensityOfCount c =
      (if c = 0 then 0 else if c ≤ 2 then 1 else if c ≤ 4 then 2
       else if c ≤ 6 then 3 else 4) := by
  simp only [intensityOfCount]
  split_ifs <;> omega

/-- C3: the current streak walks the history from the most recent entry
backward, incrementing while the count is positive and stopping at the
first zero, except that a zero on the very last ("today") entry does not
break the walk: the streak is one-if-today-is-positive plus the run of
positive counts immediately before today; counts `[1,1,1,0]` give
streak 3 and `[1,1,0,1]` give streak 1. -/
theorem currentStreak_backward_walk :
    (∀ (hist : List StreakItem) (last : StreakItem),
        currentStreakOf (hist ++ [last]) =
          (if 0 < last.count then 1 else 0) +
            ((hist.map StreakItem.count).reverse.takeWhile
                (fun n => decide (0 < n))).length) ∧
    currentStreakOf [⟨"d1", 1, 1⟩, ⟨"d2", 1, 1⟩, ⟨"d3", 1, 1⟩, ⟨"d4", 0, 0⟩] = 3 ∧
    currentStreakOf [⟨"d1", 1, 1⟩, ⟨"d2", 1, 1⟩, ⟨"d3", 0, 0⟩, ⟨"d4", 1, 1⟩] = 1 := by
  refine ⟨?_, by decide, by decide⟩
  intro hist last
  simp only [currentStreakOf, List.map_append, List.map_cons, List.map_nil,
    List.reverse_append, List.reverse_cons, List.reverse_nil, List.nil_append,
    List.cons_append, List.singleton_append]
  rw [streakWalk]
  by_cases h : 0 < last.count
  · simp [h, streakWalk_false_eq, Nat.add_comm]
  · simp [h, streakWalk_false_eq]

/-- C2 counterexample: completing the same occurrence of a recurring
task twice through the "Only this task" branch is not a no-op on the
stored record — the second application appends a duplicate date, so the
resulting task list differs from a single application. -/
theorem toggleCompleteThis_not_idempotent :
    toggleCompleteThis
        (toggleCompleteThis [⟨"1", "t", "2024-01-01", none, "daily", false, []⟩]
          "1" "2024-01-02") "1" "2024-01-02" ≠
      toggleCompleteThis [⟨"1", "t", "2024-01-01", none, "daily", false, []⟩]
        "1" "2024-01-02" := by
  decide

/-- C2 amended: the "Only this task" branch appends unconditionally, so
a second application adds a duplicate entry to `completedExceptions`;
however the membership set is unchanged — every date is contained in a
task's exception list after applying twice iff it is contained after
applying once, so all completion checks behave idempotently. -/
theorem toggleCompleteThis_membership_idempotent (tasks : List Task)
    (taskId todayStr x : String) :
    (toggleCompleteThis (toggleCompleteThis tasks taskId todayStr) taskId
          todayStr).map (fun t => t.completedExceptions.contains x) =
      (toggleCompleteThis tasks taskId todayStr).map
        (fun t => t.completedExceptions.contains x) := by
  induction tasks with
  | nil => rfl
  | cons t ts ih =>
    simp only [toggleCompleteThis, List.map_cons] at ih ⊢
    refine congrArg₂ List.cons ?_ ih
    by_cases h : (t.id == taskId) = true
    · simp [h]
    · simp [h]

/-- C1: the claim requires both the dashboard's today-list filter and
its per-day streak done-count to treat a recurring task with
`isCompleted = true` as complete on every occurring date; the dashboard
code does neither (the planner's `dailyTasks` does): on a daily task
with `isCompleted = true` and no exceptions, the home filter keeps the
task, the streak check does not count it done, and `dailyTasks` drops
it as completed. -/
theorem recurring_isCompleted_ignored_by_dashboard :
    homeKeeps ⟨"1", "t", "2024-01-01", none, "daily", true, []⟩ "2024-01-02" 0 = true ∧
    streakDoneCheck ⟨"1", "t", "2024-01-01", none, "daily", true, []⟩ "2024-01-02" = false ∧
    dailyTasks [⟨"1", "t", "2024-01-01", none, "daily", true, []⟩] ⟨2024, 1, 2⟩
        false ⟨⟨2024, 1, 2⟩, 0⟩ = [] := by
  exact ⟨by decide, by decide, by decide⟩

/-- C6 counterexample: a task whose repeat value is outside the five
known values does not match on its exact base date — the predicate
falls through the switch to the `default: return false` branch, so it
returns `false` even on `task.date` itself, contradicting the claimed
`none`-like behavior. -/
theorem unknown_repeat_no_base_match :
    occursOnDate ⟨"1", "t", "2024-01-05", none, "biweekly", false, []⟩
      "2024-01-05" = false := by
  decide

/-- C6 amended: for a repeat value outside
`{none, daily, weekly, monthly, yearly}` the predicate never throws and
returns `false` on every date — including the exact base date — so the
task is treated as never occurring rather than `none`-like. -/
theorem unknown_repeat_never_occurs (t : Task) (d : String)
    (h : t.repeatRule ∉ (["none", "daily", "weekly", "monthly", "yearly"] : List String)) :
    occursOnDate t d = false := by
  simp only [List.mem_cons, List.not_mem_nil, or_false, not_or] at h
  obtain ⟨h1, h2, h3, h4, h5⟩ := h
  simp [occursOnDate, h1, h2, h3, h4, h5]

/-- C6 witness for the amended theorem at a concrete unknown repeat
value. -/
theorem unknown_repeat_never_occurs_witness :
    occursOnDate ⟨"2", "t", "2024-01-05", none, "sometimes", false, []⟩
      "2024-01-06" = false :=
  unknown_repeat_never_occurs _ _ (by decide)

/-- C5 counterexample: on a malformed target date the predicate does not
fail with a distinguishable error condition — it silently returns a
boolean computed through NaN comparisons, and for a daily task it even
returns `true` on the malformed date. -/
theorem malformed_date_silent_boolean :
    parseYMD "notadate" = none ∧
    occursOnDate ⟨"1", "t", "2024-01-01", none, "daily", false, []⟩
        "notadate" = true :=
  ⟨by decide, by decide⟩

/-- C5 amended: `toDate` parses permissively and `occursOnDate` has no
error path at all.  Strings conforming to the mandated Date Time String
Format — including non-`YYYY-MM-DD` shorthands such as `2024-01` or
expanded years such as `+002020-01-05` — parse to valid dates with no
error, and every non-conforming string yields an Invalid Date from
which `occursOnDate` silently produces a boolean through NaN
comparisons: a daily task reports `true` and a non-recurring task
reports `false`; no `InvalidDateFormat` condition exists anywhere. -/
theorem occursOnDate_total_on_malformed (t : Task) (d : String)
    (h : parseYMD d = none) :
    (t.repeatRule = "daily" → occursOnDate t d = true) ∧
    (t.repeatRule = "none" → occursOnDate t d = false) := by
  constructor <;> intro hrep
  · cases htd : parseYMD t.date <;>
      simp [occursOnDate, toDate, h, hrep, htd, dateTimeLt]
  · cases htd : parseYMD t.date <;>
      simp [occursOnDate, toDate, h, hrep, htd, isSameDay]

/-- C5 witness for the amended theorem at a concrete malformed date. -/
theorem occursOnDate_total_on_malformed_witness :
    occursOnDate ⟨"1", "t", "2024-01-01", none, "daily", false, []⟩
      "garbage" = true :=
  (occursOnDate_total_on_malformed
    ⟨"1", "t", "2024-01-01", none, "daily", false, []⟩ "garbage" (by decide)).1 rfl

/-- C4: a monthly task based on day 31 never occurs in a month with
fewer than 31 days, a yearly task based on Feb 29 never occurs in a
non-leap year, and concretely the task `{date: 2024-01-31,
repeat: monthly}` does not occur on `2024-02-29` but does occur on
`2024-03-31`. -/
theorem monthly_yearly_no_clamping :
    (∀ (t : Task) (d : String) (b c : YMD),
        t.repeatRule = "monthly" → toDate t.date = some b → b.day = 31 →
        toDate d = some c → daysInMonth c.year c.month < 31 →
        occursOnDate t d = false) ∧
    (∀ (t : Task) (d : String) (b c : YMD),
        t.repeatRule = "yearly" → toDate t.date = some b → b.month = 2 →
        b.day = 29 → toDate d = some c → isLeapYear c.year = false →
        occursOnDate t d = false) ∧
    occursOnDate ⟨"1", "t", "2024-01-31", none, "monthly", false, []⟩
        "2024-02-29" = false ∧
    occursOnDate ⟨"1", "t", "2024-01-31", none, "monthly", false, []⟩
        "2024-03-31" = true := by
  refine ⟨?_, ?_, by decide, by decide⟩
  · intro t d b c hrep hbase hday hcur hdim
    have hc := parseYMD_valid hcur
    have hcle : c.day ≤ daysInMonth c.year c.month := hc.2.2.2
    simp [occursOnDate, hrep, hbase, hcur, dateTimeLt, getDateOpt, natEqOpt, hday]
    omega
  · intro t d b c hrep hbase hmon hday hcur hleap
    have hc := parseYMD_valid hcur
    have hdim2 : daysInMonth c.year 2 = 28 := by simp [daysInMonth, hleap]
    by_cases hcm : c.month = 2
    · have hcle : c.day ≤ 28 := by
        have h4 := hc.2.2.2
        rw [hcm, hdim2] at h4
        exact h4
      simp [occursOnDate, hrep, hbase, hcur, dateTimeLt, getDateOpt, getMonthOpt,
        natEqOpt, hday, hmon]
      omega
    · have h1 : 1 ≤ c.month := hc.1
      simp [occursOnDate, hrep, hbase, hcur, dateTimeLt, getDateOpt, getMonthOpt,
        natEqOpt, hday, hmon]
      omega

/-- C4 witness: the two universally quantified parts applied at concrete
inputs (monthly day-31 base evaluated in February 2024, which has 29
days; yearly Feb-29 base evaluated in the non-leap year 2025). -/
theorem monthly_yearly_no_clamping_witness :
    occursOnDate ⟨"1", "t", "2024-01-31", none, "monthly", false, []⟩
        "2024-02-15" = false ∧
    occursOnDate ⟨"2", "t", "2024-02-29", none, "yearly", false, []⟩
        "2025-02-28" = false :=
  ⟨monthly_yearly_no_clamping.1 _ _ ⟨2024, 1, 31⟩ ⟨2024, 2, 15⟩ rfl (by decide)
      rfl (by decide) (by decide),
    monthly_yearly_no_clamping.2.1 _ _ ⟨2024, 2, 29⟩ ⟨2025, 2, 28⟩ rfl (by decide)
      rfl rfl (by decide) (by decide)⟩

/-- C8: in the dashboard today filter, an occurring, not-yet-completed
task with a parseable start time is dropped iff its start time is
strictly earlier than the current minute of the day (equal or later is
kept), and an occurring task without a start time is never dropped by
this cutoff. -/
theorem home_filter_time_cutoff (t : Task) (todayStr : String) (cm : Nat)
    (hocc : occursOnDate t todayStr = true)
    (hexc : t.completedExceptions.contains todayStr = false)
    (hone : (t.repeatRule == "none" && t.isCompleted) = false) :
    (∀ st tm, t.startTime = some st → timeToMinutes st = some tm →
        (homeKeeps t todayStr cm = false ↔ tm < cm)) ∧
    (t.startTime = none → homeKeeps t todayStr cm = true) := by
  have hmem : todayStr ∉ t.completedExceptions := by simpa using hexc
  constructor
  · intro st tm hst htm
    have hne : st ≠ "" := by
      intro he
      subst he
      simp [timeToMinutes, splitOnChar] at htm
    by_cases hlt : tm < cm <;>
      simp [homeKeeps, hocc, hmem, hone, isFutureCheck, hst, hne, htm, hlt]
  · intro hst
    simp [homeKeeps, hocc, hmem, hone, isFutureCheck, hst]

/-- C8 witness: the weekly 09:00 task of the spec scenario, evaluated on
2024-03-17 (a Sunday, like its base 2024-03-10): kept at 08:00 (minute
480), dropped at 10:00 (minute 600). -/
theorem home_filter_time_cutoff_witness :
    homeKeeps ⟨"1", "t", "2024-03-10", some "09:00", "weekly", false, []⟩
        "2024-03-17" 480 = true ∧
    homeKeeps ⟨"1", "t", "2024-03-10", some "09:00", "weekly", false, []⟩
        "2024-03-17" 600 = false := by
  constructor
  · have h := (home_filter_time_cutoff
        ⟨"1", "t", "2024-03-10", some "09:00", "weekly", false, []⟩
        "2024-03-17" 480 (by decide) (by decide) (by decide)).1
        "09:00" 540 rfl (by decide)
    cases hb : homeKeeps ⟨"1", "t", "2024-03-10", some "09:00", "weekly", false, []⟩
        "2024-03-17" 480
    · exact absurd (h.mp hb) (by omega)
    · rfl
  · exact ((home_filter_time_cutoff
        ⟨"1", "t", "2024-03-10", some "09:00", "weekly", false, []⟩
        "2024-03-17" 600 (by decide) (by decide) (by decide)).1
        "09:00" 540 rfl (by decide)).mpr (by omega)

/-- C10: for every task list and valid anchor day, the streak/heatmap
history has exactly 14 entries whose dates render 14 consecutive
calendar days in chronological order ending on the anchor day, and the
resulting current streak is at most 14. -/
theorem computeHistory_window_invariants (tasks : List Task) (today : YMD)
    (hv : ValidYMD today) :
    (computeHistory tasks today).length = 14 ∧
    (∃ ds : List YMD, ds.length = 14 ∧
        (computeHistory tasks today).map StreakItem.date =
          ds.map getLocalDateString ∧
        List.Chain' (fun a b => b = nextDay a) ds ∧
        (∀ x ∈ ds, ValidYMD x) ∧
        ds.getLast? = some today) ∧
    currentStreakOf (computeHistory tasks today) ≤ 14 := by
  refine ⟨by simp [computeHistory],
    ⟨(List.range 14).map (fun j => subDays today (13 - j)), by simp, ?_, ?_, ?_, ?_⟩, ?_⟩
  · simp [computeHistory, List.map_map]
  · rw [List.chain'_iff_get]
    intro i hi
    simp only [List.length_map, List.length_range] at hi
    rw [List.get_map, List.get_map]
    simp only [List.get_range]
    have h13 : 13 - i = 13 - (i + 1) + 1 := by omega
    rw [h13, nextDay_subDays hv]
  · intro x hx
    simp only [List.mem_map, List.mem_range] at hx
    obtain ⟨j, hj, rfl⟩ := hx
    exact subDays_valid hv _
  · rw [List.getLast?_eq_getElem?]
    simp [subDays]
  · have hle := streakWalk_le true
      (((computeHistory tasks today).map StreakItem.count).reverse)
    simpa [currentStreakOf, computeHistory] using hle

/-- C10 witness: the invariants instantiated at the empty task list and
the concrete anchor day 2024-03-15. -/
theorem computeHistory_window_invariants_witness :
    (computeHistory [] ⟨2024, 3, 15⟩).length = 14 ∧
    (∃ ds : List YMD, ds.length = 14 ∧
        (computeHistory [] ⟨2024, 3, 15⟩).map StreakItem.date =
          ds.map getLocalDateString ∧
        List.Chain' (fun a b => b = nextDay a) ds ∧
        (∀ x ∈ ds, ValidYMD x) ∧
        ds.getLast? = some ⟨2024, 3, 15⟩) ∧
    currentStreakOf (computeHistory [] ⟨2024, 3, 15⟩) ≤ 14 :=
  computeHistory_window_invariants [] ⟨2024, 3, 15⟩ (by decide)

end DuperAIO
